import Mathlib

set_option maxRecDepth 8000

/-!
Shallow embedding of the archive/command engine in
render_ribmosaic/rm_export.py.

External collaborators (the pipeline manager, the regex library, the file
system and the subprocess layer) are modelled as explicit parameters or small
state structures, while the control flow of every embedded method follows the
Python source.  File handles are modelled by a boolean (handle attribute set
or None); actual gzip compression is reduced to the str/bytes distinction it
induces on reads and writes, which is what the close-time regex path observes.
-/

/-- Python data travelling through a file handle: a `str` or a `bytes` value.
A plain text handle reads and writes `str`; a gzip handle reads `bytes` and
its writes go through `text.encode()`, which only exists on `str`. -/
inductive PyData where
  | pstr : String → PyData
  | pbytes : String → PyData
deriving DecidableEq

/-- Python truthiness of a `str`/`bytes` value (`if text:`). -/
def PyData.isEmptyData : PyData → Bool
  | .pstr s => s.isEmpty
  | .pbytes s => s.isEmpty

/-- File open modes used by the source: 'r', 'w', 'a'. -/
inductive FileMode where
  | read
  | write
  | append
deriving DecidableEq

/-- The slice of the external pipeline manager consulted by the archive code:
`list_elements` enumerates sub-elements of an xmlpath, and the `attr_`
functions model `get_attr` for the attribute names the engine reads on regex
elements ("target", "regex", "replace", "match_count", the last already parsed by
`int()`). -/
structure PipelineManager where
  list_elements : String → List String
  attr_target : String → String
  attr_regex : String → String
  attr_replace : String → String
  attr_matches : String → Nat

/-- State of an `ExporterArchive` instance: flags, identity, the two file
pointers (`_pointer_file`, `_pointer_cache`, modelled as set/None booleans)
and the list of whole-archive regex xmlpaths (`_archive_regexes`). -/
structure ArcSt where
  is_root : Bool
  is_gzip : Bool
  is_exec : Bool
  archive_path : String
  archive_name : String
  ptr_file : Bool
  ptr_cache : Bool
  archive_regexes : List String
deriving DecidableEq

/-- State of the physical file under `archive_path + archive_name`:
whether it exists, its stored text, and its executable permission bit. -/
structure FileSt where
  present : Bool
  content : String
  exec_bit : Bool
deriving DecidableEq

/-- `ExporterArchive.open_archive` (rm_export.py lines 786-819).  Updates the
gzip/exec flags when arguments are given, raises when `archive_name` is empty
or a read misses the file, opens the handle (mode 'w' truncates, 'a' keeps
existing content), applies `chmod` when `is_exec`, and on success sets
`is_root = True`. -/
def open_archive (a : ArcSt) (fs : FileSt) (gz ex : Option Bool)
    (mode : FileMode) : Except Unit (ArcSt × FileSt) :=
  let a1 := { a with is_gzip := gz.getD a.is_gzip, is_exec := ex.getD a.is_exec }
  if a1.archive_name = "" then .error ()
  else
    match mode with
    | .read =>
        if fs.present then
          .ok ({ a1 with ptr_file := true, is_root := true },
               { fs with exec_bit := fs.exec_bit || a1.is_exec })
        else .error ()
    | .write =>
        .ok ({ a1 with ptr_file := true, is_root := true },
             { present := true, content := "",
               exec_bit := fs.exec_bit || a1.is_exec })
    | .append =>
        .ok ({ a1 with ptr_file := true, is_root := true },
             { present := true,
               content := if fs.present then fs.content else "",
               exec_bit := fs.exec_bit || a1.is_exec })

/-- The body of `ExporterArchive.write_text` without the optional close
(lines 888-895): empty text writes nothing, a missing handle raises, a gzip
handle writes `text.encode()` (failing on `bytes`, which has no `encode`),
and a plain handle appends `str` text (writing `bytes` to it raises too). -/
def write_raw (a : ArcSt) (fs : FileSt) (t : PyData) :
    Except Unit (ArcSt × FileSt) :=
  if t.isEmptyData then .ok (a, fs)
  else if a.ptr_file then
    match t with
    | .pstr s => .ok (a, { fs with content := fs.content ++ s })
    | .pbytes _ => .error ()
  else .error ()

/-- One regex rule as read from a regexes sub-element: pattern, replacement
and the `int(match_count)` maximum substitution count (0 meaning unlimited). -/
structure RegexRule where
  regex : String
  replace : String
  match_count : Nat
deriving DecidableEq

/-- The regex rules named by a list of registered regexes xmlpaths, in
registration order, each xmlpath expanded through `list_elements` (the two
nested loops of close_archive, lines 848-859). -/
def rule_list (pm : PipelineManager) (xps : List String) : List RegexRule :=
  xps.bind fun xp =>
    (pm.list_elements xp).map fun e =>
      let rp := xp ++ "/" ++ e
      { regex := pm.attr_regex rp, replace := pm.attr_replace rp,
        match_count := pm.attr_matches rp }

/-- Apply one rule with the external substitution primitive (`re.sub`); the
gzip branch encodes pattern and replacement to bytes first, which preserves
their text, so the same substitution acts under either tag. -/
def sub_data (sub : String → String → Nat → String → String) (r : RegexRule) :
    PyData → PyData
  | .pstr s => .pstr (sub r.regex r.replace r.match_count s)
  | .pbytes s => .pbytes (sub r.regex r.replace r.match_count s)

/-- Folding a rule list over file text in registration order. -/
def regex_fold (sub : String → String → Nat → String → String)
    (rules : List RegexRule) (s : String) : String :=
  rules.foldl (fun t r => sub r.regex r.replace r.match_count t) s

/-- The regex block of `ExporterArchive.close_archive` (lines 840-878): reopen
read-only, read the whole text, fold every registered rule over it, reopen
write-truncate and write the result back; any failure is swallowed (the
`except` arm of the source even constructs its RibmosaicError without raising
it), leaving whatever file state the failure point produced. -/
def close_regex_phase (pm : PipelineManager)
    (sub : String → String → Nat → String → String)
    (a : ArcSt) (fs : FileSt) : ArcSt × FileSt :=
  match open_archive a fs none none .read with
  | .error _ => (a, fs)
  | .ok (a1, fs1) =>
      let t0 : PyData := if a1.is_gzip then .pbytes fs1.content
                         else .pstr fs1.content
      let t1 := (rule_list pm a1.archive_regexes).foldl
        (fun t r => sub_data sub r t) t0
      match open_archive a1 fs1 none none .write with
      | .error _ => (a1, fs1)
      | .ok (a2, fs2) =>
          match write_raw a2 fs2 t1 with
          | .error _ => (a2, fs2)
          | .ok (a3, fs3) => ({ a3 with ptr_file := false }, fs3)

/-- `ExporterArchive.close_archive` (lines 821-878): a non-root archive does
nothing; a root archive drops the cache pointer, closes the file pointer when
set, and then runs the regex phase when whole-archive rules are registered. -/
def close_archive (pm : PipelineManager)
    (sub : String → String → Nat → String → String)
    (a : ArcSt) (fs : FileSt) : ArcSt × FileSt :=
  if a.is_root then
    let a1 := { a with ptr_cache := false }
    if a1.ptr_file then
      let a2 := { a1 with ptr_file := false }
      if a2.archive_regexes.isEmpty then (a2, fs)
      else close_regex_phase pm sub a2 fs
    else (a1, fs)
  else (a, fs)

/-- `ExporterArchive.write_text` (lines 880-898): the raw write followed by
an optional `close_archive`. -/
def write_text (pm : PipelineManager)
    (sub : String → String → Nat → String → String)
    (a : ArcSt) (fs : FileSt) (t : PyData) (close : Bool) :
    Except Unit (ArcSt × FileSt) :=
  match write_raw a fs t with
  | .error e => .error e
  | .ok (a1, fs1) =>
      if close then .ok (close_archive pm sub a1 fs1) else .ok (a1, fs1)

/-- Literal-pattern instantiation of `re.sub pattern repl text count`: for a
pattern with no regex metacharacters, `re.sub` replaces occurrences left to
right, at most `count` of them when `count` is positive and all of them when
`count = 0`.  Recursion is on the text; a match consumes the (non-empty)
pattern. -/
def sub_lit_aux (pat repl : List Char) (unlimited : Bool) :
    Nat → Nat → List Char → List Char
  | 0, _, s => s
  | _ + 1, _, [] => []
  | fuel + 1, cnt, c :: rest =>
      if !pat.isEmpty && pat.isPrefixOf (c :: rest)
          && (unlimited || decide (0 < cnt)) then
        repl ++ sub_lit_aux pat repl unlimited fuel (cnt - 1)
          ((c :: rest).drop pat.length)
      else
        c :: sub_lit_aux pat repl unlimited fuel cnt rest

/-- `re.sub` on a literal (metacharacter-free, non-empty) pattern with the
`match_count` count from the source (0 meaning unlimited).  The fuel argument
(the text length) bounds the recursion; each step consumes at least one
character, so the fuel never runs out on a non-empty pattern. -/
def re_sub_lit (pat repl : String) (match_count : Nat) (s : String) : String :=
  String.mk (sub_lit_aux pat.data repl.data (match_count == 0)
    s.data.length match_count s.data)

/-- Appending to the freshly truncated file. -/
theorem str_empty_append (s : String) : "" ++ s = s := by
  cases s
  rfl

-- Concrete fixtures shared by several archive-level results below.

/-- A pipeline manager with no regex elements anywhere. -/
def pm_triv : PipelineManager :=
  { list_elements := fun _ => [], attr_target := fun _ => "",
    attr_regex := fun _ => "", attr_replace := fun _ => "",
    attr_matches := fun _ => 0 }

/-- A root archive whose handle has already been closed. -/
def arc_closed : ArcSt :=
  { is_root := true, is_gzip := false, is_exec := false,
    archive_path := "./", archive_name := "A.rib",
    ptr_file := false, ptr_cache := false, archive_regexes := [] }

/-- A non-root child archive holding a reference to an open shared handle. -/
def arc_child : ArcSt :=
  { is_root := false, is_gzip := false, is_exec := false,
    archive_path := "./", archive_name := "A.rib",
    ptr_file := true, ptr_cache := false, archive_regexes := [] }

/-- A present file with some content. -/
def fs_demo : FileSt := { present := true, content := "RIB", exec_bit := false }

/-- Claim C4 counterexample: on an archive whose handle is already closed,
`write_text` with the empty text returns normally (the `if text:` guard skips
both the write and the error), so it does not fail for every text argument. -/
theorem write_text_closed_empty_ok :
    write_text pm_triv re_sub_lit arc_closed fs_demo (.pstr "") false
      = .ok (arc_closed, fs_demo) := rfl

/-- Claim C4 (amended): on an archive whose file handle is not open,
`write_text` fails for every non-empty text instead of silently discarding
it; the empty text is a silent no-op. -/
theorem write_text_closed_nonempty_fails (pm : PipelineManager)
    (sub : String → String → Nat → String → String)
    (a : ArcSt) (fs : FileSt) (t : PyData)
    (hptr : a.ptr_file = false) (hne : t.isEmptyData = false) :
    write_text pm sub a fs t false = .error () := by
  unfold write_text write_raw
  simp [hptr, hne]

/-- Witness for the amended C4 statement at a concrete closed archive. -/
theorem write_text_closed_nonempty_fails_witness :
    write_text pm_triv re_sub_lit arc_closed fs_demo (.pstr "X") false
      = .error () :=
  write_text_closed_nonempty_fails pm_triv re_sub_lit arc_closed fs_demo
    (.pstr "X") rfl rfl

/-- Claim C5: `close_archive` on a non-root archive is a no-op (it neither
closes the shared physical handle nor touches the file); a root close with no
registered rules drops the handle and leaves the file as written. -/
theorem close_archive_nonroot_noop (pm : PipelineManager)
    (sub : String → String → Nat → String → String)
    (a : ArcSt) (fs : FileSt) :
    (a.is_root = false → close_archive pm sub a fs = (a, fs)) ∧
    (a.is_root = true → a.archive_regexes = [] →
      (close_archive pm sub a fs).1.ptr_file = false ∧
      (close_archive pm sub a fs).2 = fs) := by
  constructor
  · intro h
    unfold close_archive
    simp [h]
  · intro h hr
    unfold close_archive
    by_cases hp : a.ptr_file <;> simp [h, hr, hp]

/-- Witness for C5: closing a concrete non-root child leaves the shared
handle open and the file untouched. -/
theorem close_archive_nonroot_noop_witness :
    close_archive pm_triv re_sub_lit arc_child fs_demo = (arc_child, fs_demo) :=
  (close_archive_nonroot_noop pm_triv re_sub_lit arc_child fs_demo).1 rfl

/-- Folding `sub_data` over `str` text stays `str` and folds the plain
substitutions. -/
theorem fold_sub_data_pstr (sub : String → String → Nat → String → String)
    (rules : List RegexRule) (s : String) :
    rules.foldl (fun t r => sub_data sub r t) (.pstr s)
      = .pstr (regex_fold sub rules s) := by
  induction rules generalizing s with
  | nil => rfl
  | cons r rs ih =>
      simp only [List.foldl_cons, sub_data, regex_fold] at *
      exact ih _

/-- Folding `sub_data` over `bytes` text stays `bytes`. -/
theorem fold_sub_data_pbytes (sub : String → String → Nat → String → String)
    (rules : List RegexRule) (s : String) :
    rules.foldl (fun t r => sub_data sub r t) (.pbytes s)
      = .pbytes (regex_fold sub rules s) := by
  induction rules generalizing s with
  | nil => rfl
  | cons r rs ih =>
      simp only [List.foldl_cons, sub_data, regex_fold] at *
      exact ih _

/-- Closing a root non-gzip archive with registered rules rewrites the file to
the rule fold of its text and releases the handle. -/
theorem close_root_str_rewrites (pm : PipelineManager)
    (sub : String → String → Nat → String → String)
    (a : ArcSt) (fs : FileSt)
    (hroot : a.is_root = true) (hptr : a.ptr_file = true)
    (hgz : a.is_gzip = false) (hname : a.archive_name ≠ "")
    (hpres : fs.present = true) (hrx : a.archive_regexes ≠ []) :
    (close_archive pm sub a fs).1.ptr_file = false ∧
    (close_archive pm sub a fs).2.content
      = regex_fold sub (rule_list pm a.archive_regexes) fs.content := by
  unfold close_archive close_regex_phase open_archive
  simp only [hroot, hptr, hgz, hname, hpres, if_true, if_false,
    List.isEmpty_eq_true, hrx, Option.getD_none, ite_false, ite_true,
    Bool.false_eq_true, reduceIte]
  simp only [fold_sub_data_pstr]
  unfold write_raw PyData.isEmptyData
  by_cases he :
      (regex_fold sub (rule_list pm a.archive_regexes) fs.content).isEmpty
  · have he2 := (String.isEmpty_iff _).mp he
    simp [he, he2]
  · simp only [he, Bool.false_eq_true, if_false, hptr, if_true, reduceIte]
    simp [str_empty_append]

/-- Closing a root gzip archive with registered rules truncates the file:
the write-back of the folded `bytes` text fails inside the swallowed try
block after the `mode='w'` reopen already emptied the file. -/
theorem close_root_gzip_truncates (pm : PipelineManager)
    (sub : String → String → Nat → String → String)
    (a : ArcSt) (fs : FileSt)
    (hroot : a.is_root = true) (hptr : a.ptr_file = true)
    (hgz : a.is_gzip = true) (hname : a.archive_name ≠ "")
    (hpres : fs.present = true) (hrx : a.archive_regexes ≠ []) :
    (close_archive pm sub a fs).2.content = "" := by
  unfold close_archive close_regex_phase open_archive
  simp only [hroot, hptr, hgz, hname, hpres, if_true, if_false,
    List.isEmpty_eq_true, hrx, Option.getD_none, ite_false, ite_true,
    Bool.false_eq_true, reduceIte]
  simp only [fold_sub_data_pbytes]
  unfold write_raw PyData.isEmptyData
  by_cases he :
      (regex_fold sub (rule_list pm a.archive_regexes) fs.content).isEmpty
  · simp [he]
  · simp [he]

-- Concrete fixtures for the regex-at-close results: one registered
-- regexes element holding the single rule (foo -> baz, match_count 1).

/-- Pipeline manager carrying the rule (foo -> baz, 1) under
"cmd/regexes/r1" and nothing else. -/
def pm_foo : PipelineManager :=
  { list_elements := fun xp => if xp = "cmd/regexes" then ["r1"] else [],
    attr_target := fun _ => "",
    attr_regex := fun rp => if rp = "cmd/regexes/r1" then "foo" else "",
    attr_replace := fun rp => if rp = "cmd/regexes/r1" then "baz" else "",
    attr_matches := fun rp => if rp = "cmd/regexes/r1" then 1 else 0 }

/-- An open root archive with the "cmd/regexes" rules registered. -/
def arc_foo : ArcSt :=
  { is_root := true, is_gzip := false, is_exec := false,
    archive_path := "./", archive_name := "S.rib",
    ptr_file := true, ptr_cache := false,
    archive_regexes := ["cmd/regexes"] }

/-- The gzip variant of the same archive. -/
def arc_foo_gz : ArcSt := { arc_foo with is_gzip := true }

/-- The file written with "foo bar foo". -/
def fs_foo : FileSt :=
  { present := true, content := "foo bar foo", exec_bit := false }

/-- Claim C7: closing the archive written with "foo bar foo" under the single
rule (foo -> baz, match_count 1) leaves "baz bar foo"; in general the rules
are folded over the whole file text in registration order with the
match-count bound (the third conjunct shows count 0 replacing without
limit). -/
theorem close_archive_regex_rules :
    ((close_archive pm_foo re_sub_lit arc_foo fs_foo).2.content
        = "baz bar foo") ∧
    (∀ (pm : PipelineManager) (sub : String → String → Nat → String → String)
        (a : ArcSt) (fs : FileSt),
      a.is_root = true → a.ptr_file = true → a.is_gzip = false →
      a.archive_name ≠ "" → fs.present = true → a.archive_regexes ≠ [] →
      (close_archive pm sub a fs).2.content
        = regex_fold sub (rule_list pm a.archive_regexes) fs.content) ∧
    (re_sub_lit "foo" "baz" 0 "foo bar foo" = "baz bar baz") := by
  refine ⟨by decide, ?_, by decide⟩
  intro pm sub a fs h1 h2 h3 h4 h5 h6
  exact (close_root_str_rewrites pm sub a fs h1 h2 h3 h4 h5 h6).2

/-- Witness for the general conjunct of C7 at the concrete archive. -/
theorem close_archive_regex_rules_witness :
    (close_archive pm_foo re_sub_lit arc_foo fs_foo).2.content
      = regex_fold re_sub_lit (rule_list pm_foo arc_foo.archive_regexes)
          fs_foo.content :=
  close_archive_regex_rules.2.1 pm_foo re_sub_lit arc_foo fs_foo rfl rfl rfl
    (by decide) rfl (by decide)

/-- Claim C6 counterexample: for a gzip root archive holding one registered
rule, close_archive swallows the rewrite failure (it returns normally), but
the file does not keep its pre-rewrite content - the truncating reopen plus
the failing bytes write-back leave it empty. -/
theorem close_archive_gzip_loses_content :
    fs_foo.content = "foo bar foo" ∧
    (close_archive pm_foo re_sub_lit arc_foo_gz fs_foo).2.content = "" := by
  exact ⟨rfl, by decide⟩

/-- Claim C6 (amended): a regex failure never escapes close_archive (the
model is a total function mirroring the swallowed except branch); a failure
before the write reopen - here, the read-back finding no file - leaves the
file untouched, while for a gzip archive with rules the failure comes after
the truncating reopen and the file content is lost. -/
theorem close_archive_regex_failure (pm : PipelineManager)
    (sub : String → String → Nat → String → String)
    (a : ArcSt) (fs : FileSt) :
    (a.is_root = true → fs.present = false →
      (close_archive pm sub a fs).2 = fs) ∧
    (a.is_root = true → a.ptr_file = true → a.is_gzip = true →
      a.archive_name ≠ "" → fs.present = true → a.archive_regexes ≠ [] →
      (close_archive pm sub a fs).2.content = "") := by
  constructor
  · intro hroot hpres
    unfold close_archive close_regex_phase open_archive
    by_cases hp : a.ptr_file
    · by_cases hrx : a.archive_regexes.isEmpty
      · simp [hroot, hp, hrx]
      · by_cases hn : a.archive_name = "" <;>
          simp [hroot, hp, hrx, hn, hpres]
    · simp [hroot, hp]
  · intro h1 h2 h3 h4 h5 h6
    exact close_root_gzip_truncates pm sub a fs h1 h2 h3 h4 h5 h6

/-- Witness for C6 (amended) at a concrete archive with a missing file. -/
theorem close_archive_regex_failure_witness :
    (close_archive pm_foo re_sub_lit arc_foo
        { present := false, content := "", exec_bit := false }).2
      = { present := false, content := "", exec_bit := false } :=
  (close_archive_regex_failure pm_foo re_sub_lit arc_foo
    { present := false, content := "", exec_bit := false }).1 rfl rfl

/-- Claim C9: every successful open_archive leaves `is_root = True` - also on
an archive constructed as a non-root child - and a read reopen of a non-gzip
child with registered rules turns its close_archive into the root path:
the handle is released and the regex-at-close rewrite runs on the file. -/
theorem open_archive_promotes_to_root (pm : PipelineManager)
    (sub : String → String → Nat → String → String)
    (a : ArcSt) (fs : FileSt) :
    (∀ (gz ex : Option Bool) (m : FileMode) (a2 : ArcSt) (fs2 : FileSt),
      open_archive a fs gz ex m = .ok (a2, fs2) → a2.is_root = true) ∧
    (∀ (a2 : ArcSt) (fs2 : FileSt), a.is_gzip = false →
      open_archive a fs none none .read = .ok (a2, fs2) →
      a2.archive_regexes ≠ [] →
      (close_archive pm sub a2 fs2).1.ptr_file = false ∧
      (close_archive pm sub a2 fs2).2.content
        = regex_fold sub (rule_list pm a2.archive_regexes) fs2.content) := by
  constructor
  · intro gz ex m a2 fs2 hok
    simp only [open_archive] at hok
    split at hok
    · exact Except.noConfusion hok
    · split at hok <;> try split at hok
      all_goals
        first
          | exact Except.noConfusion hok
          | (simp only [Except.ok.injEq, Prod.mk.injEq] at hok
             rw [← hok.1])
  · intro a2 fs2 hgz hok hrx
    simp only [open_archive, Option.getD_none] at hok
    split at hok
    · exact Except.noConfusion hok
    · rename_i hname
      split at hok
      · rename_i hpres
        simp only [Except.ok.injEq, Prod.mk.injEq] at hok
        obtain ⟨ha, hfs⟩ := hok
        subst ha
        subst hfs
        exact close_root_str_rewrites pm sub _ _ rfl rfl hgz hname hpres hrx
      · exact Except.noConfusion hok

-- Claim C3: the regex rule lists of ExporterArchive.__init__ are Python list
-- objects; the file-parent branch (lines 766-769) copies the references while
-- the non-file branch (lines 771-773) builds fresh lists.  The heap below
-- makes that aliasing observable: a list reference is an index into a store.

/-- Heap of regex rule lists; a Python list object is an index into it. -/
structure RegexStore where
  heap : List (List String)
deriving DecidableEq

/-- Allocate a fresh list object (`list(...)`). -/
def alloc_list (st : RegexStore) (l : List String) : Nat × RegexStore :=
  (st.heap.length, ⟨st.heap ++ [l]⟩)

/-- The contents a reference currently points at. -/
def read_list (st : RegexStore) (r : Nat) : List String :=
  (st.heap[r]?).getD []

/-- In-place mutation of the referenced list (`.append`). -/
def write_list (st : RegexStore) (r : Nat) (l : List String) : RegexStore :=
  ⟨st.heap.set r l⟩

/-- The list-reference state of one archive: `_archive_regexes` and
`_target_regexes`. -/
structure ArcRefs where
  archive_ref : Nat
  target_ref : Nat
deriving DecidableEq

/-- `ExporterArchive.__init__` (lines 744-773) restricted to the regex list
state.  A parent that is a file object passes its list references through
unchanged (`getattr`, no copy); otherwise fresh lists are allocated by
`list(...)` copies of the empty class attributes. -/
def init_archive_refs : Option ArcRefs → RegexStore → ArcRefs × RegexStore
  | some parent, st =>
      ({ archive_ref := parent.archive_ref,
         target_ref := parent.target_ref }, st)
  | none, st =>
      let p1 := alloc_list st []
      let p2 := alloc_list p1.2 []
      ({ archive_ref := p1.1, target_ref := p2.1 }, p2.2)

/-- `ExporterArchive.add_regexes` (lines 967-986): a non-empty xmlpath with
sub-elements is appended to the target list when it declares a `target`
attribute, otherwise to the whole-archive list; the append mutates the
referenced list in place. -/
def add_regexes (pm : PipelineManager) (a : ArcRefs) (xmlpath : String)
    (st : RegexStore) : RegexStore :=
  if xmlpath ≠ "" then
    if pm.list_elements xmlpath ≠ [] then
      if pm.attr_target xmlpath ≠ "" then
        write_list st a.target_ref (read_list st a.target_ref ++ [xmlpath])
      else
        write_list st a.archive_ref (read_list st a.archive_ref ++ [xmlpath])
    else st
  else st

-- Concrete heap states for the shared-sibling counterexample: a parent
-- archive built from a plain context, then two children built from it.

/-- A parent archive built from a non-file export object. -/
def c3_parent : ArcRefs × RegexStore := init_archive_refs none ⟨[]⟩

/-- First sibling constructed from the (file) parent. -/
def c3_c1 : ArcRefs × RegexStore := init_archive_refs (some c3_parent.1) c3_parent.2

/-- Second sibling constructed from the same parent. -/
def c3_c2 : ArcRefs × RegexStore := init_archive_refs (some c3_parent.1) c3_c1.2

/-- The heap after registering a whole-archive rule on the first sibling. -/
def c3_after : RegexStore := add_regexes pm_foo c3_c1.1 "cmd/regexes" c3_c2.2

/-- Claim C3 counterexample: two sibling archives constructed from the same
parent export object - here an open archive, itself a legal export object -
alias the parent's rule lists, so add_regexes on one sibling changes the
whole-archive rule list the other sibling observes. -/
theorem add_regexes_siblings_share :
    read_list c3_c2.2 c3_c2.1.archive_ref = [] ∧
    read_list c3_after c3_c2.1.archive_ref = ["cmd/regexes"] := by
  decide

/-- Claim C3 (amended): siblings constructed from a parent export object that
is not itself a file object receive independent fresh rule lists, so
add_regexes on one leaves both of the other sibling's lists unchanged. -/
theorem add_regexes_nonfile_siblings_indep (pm : PipelineManager)
    (st : RegexStore) (xp : String) (c1 c2 : ArcRefs) (st1 st2 : RegexStore)
    (h1 : init_archive_refs none st = (c1, st1))
    (h2 : init_archive_refs none st1 = (c2, st2)) :
    read_list (add_regexes pm c1 xp st2) c2.archive_ref
        = read_list st2 c2.archive_ref ∧
    read_list (add_regexes pm c1 xp st2) c2.target_ref
        = read_list st2 c2.target_ref := by
  simp only [init_archive_refs, alloc_list, Prod.mk.injEq] at h1 h2
  obtain ⟨hc1, hst1⟩ := h1
  obtain ⟨hc2, hst2⟩ := h2
  subst hc1
  subst hst1
  subst hc2
  subst hst2
  constructor <;>
  · unfold add_regexes read_list write_list
    repeat' split
    all_goals try rfl
    all_goals
      rw [List.getElem?_set_ne
        (by simp only [List.length_append, List.length_cons,
              List.length_nil]; omega)]

-- Claim C1/C10: ExporterCommand process handling.

/-- A spawned subprocess handle with the two failure switches relevant to
`terminate_command`: whether `os.killpg(pid, SIGTERM)` raises and whether
`Popen.terminate()` raises. -/
structure ProcHandle where
  killpg_fails : Bool
  term_fails : Bool
deriving DecidableEq

/-- `os.killpg(self.command_process.pid, SIGTERM)`: raises when
`command_process` is None (no `.pid` attribute) or when group signalling
fails. -/
def killpg_call : Option ProcHandle → Except Unit Unit
  | none => .error ()
  | some p => if p.killpg_fails then .error () else .ok ()

/-- `self.command_process.terminate()`: raises when `command_process` is None
or when single-process termination fails. -/
def popen_terminate_call : Option ProcHandle → Except Unit Unit
  | none => .error ()
  | some p => if p.term_fails then .error () else .ok ()

/-- `ExporterCommand.terminate_command` (lines 1062-1071): the unix-style
group kill inside an inner try whose except falls back to the windows-style
terminate, all inside an outer try whose except passes. -/
def terminate_command (proc : Option ProcHandle) : Except Unit Unit :=
  match killpg_call proc with
  | .ok _ => .ok ()
  | .error _ =>
      match popen_terminate_call proc with
      | .ok _ => .ok ()
      | .error _ => .ok ()

/-- Claim C10: terminate_command returns normally in every command state -
with no subprocess ever spawned, and with both termination styles failing. -/
theorem terminate_command_never_raises (proc : Option ProcHandle) :
    terminate_command proc = .ok () := by
  unfold terminate_command killpg_call popen_terminate_call
  cases proc with
  | none => rfl
  | some p =>
      by_cases h1 : p.killpg_fails <;> by_cases h2 : p.term_fails <;>
        simp [h1, h2]

/-- Witness instantiating C10 where both termination paths fail. -/
theorem terminate_command_never_raises_witness :
    terminate_command (some { killpg_fails := true, term_fails := true })
      = .ok () :=
  terminate_command_never_raises (some { killpg_fails := true, term_fails := true })

/-- The busy-wait of `ExporterCommand.execute_command` (lines 1112-1117):
while `poll()` is None, `_test_break()` is tried; a raised break calls
`terminate_command`, after which the process dies and the next poll leaves
the loop.  `alive` is the number of polls the process would survive without
termination, `brk` the poll index at which the user break arrives (if any);
the result is whether terminate_command was called. -/
def poll_loop : Nat → Option Nat → Nat → Bool
  | 0, _, _ => false
  | n + 1, brk, i => if brk = some i then true else poll_loop n brk (i + 1)

/-- Outcome of one `execute_command` run after a successful spawn. -/
structure ExecOutcome where
  terminated : Bool
  regextargets_applied : Bool
deriving DecidableEq

/-- `ExporterCommand.execute_command` (lines 1095-1120) after the archive is
closed: when the resolved `execute` attribute is False nothing runs; in
interactive mode the spawned process is neither polled nor post-processed;
otherwise the poll loop runs and then `apply_regextargets()` is called -
unconditionally, whether or not the loop terminated the process. -/
def execute_command_run (interactive exec_attr : Bool) (alive : Nat)
    (brk : Option Nat) : ExecOutcome :=
  if exec_attr then
    if interactive then { terminated := false, regextargets_applied := false }
    else { terminated := poll_loop alive brk 0, regextargets_applied := true }
  else { terminated := false, regextargets_applied := false }

/-- Claim C1 counterexample: a cancellation at the very first poll of a
process that would run for five polls terminates the command, yet
apply_regextargets still runs for it. -/
theorem execute_command_cancel_still_applies_targets :
    (execute_command_run false true 5 (some 0)).terminated = true ∧
    (execute_command_run false true 5 (some 0)).regextargets_applied = true :=
  ⟨rfl, rfl⟩

/-- The poll loop reports a termination exactly when the break arrives while
the process is still alive. -/
theorem poll_loop_true_iff (n : Nat) (brk : Option Nat) :
    ∀ i, poll_loop n brk i = true ↔ ∃ j, j < n ∧ brk = some (i + j) := by
  induction n with
  | zero => intro i; simp [poll_loop]
  | succ n ih =>
      intro i
      unfold poll_loop
      by_cases h : brk = some i
      · simp only [h, if_true, true_iff, reduceIte]
        exact ⟨0, by omega, by simp⟩
      · simp only [h, if_false, reduceIte, ih (i + 1)]
        constructor
        · rintro ⟨j, hj, hb⟩
          exact ⟨j + 1, by omega, by rw [hb]; congr 1; omega⟩
        · rintro ⟨j, hj, hb⟩
          match j, hj with
          | 0, _ => exact absurd hb (by simpa using h)
          | j + 1, hj =>
              exact ⟨j, by omega, by rw [hb]; congr 1; omega⟩

/-- Claim C1 (amended): in a non-interactive spawned run, a cancellation
while the subprocess is alive does terminate the process, but
apply_regextargets runs afterwards regardless - target-regex post-processing
follows every non-interactive spawned execution, terminated or not. -/
theorem execute_command_targets_always_applied (alive : Nat)
    (brk : Option Nat) :
    (execute_command_run false true alive brk).regextargets_applied = true ∧
    ((execute_command_run false true alive brk).terminated = true ↔
      ∃ j, j < alive ∧ brk = some j) := by
  refine ⟨rfl, ?_⟩
  simpa using poll_loop_true_iff alive brk 0

/-- Witness for amended C1: a cancelled run (break at poll 1 of 5) with
post-processing still applied. -/
theorem execute_command_targets_always_applied_witness :
    (execute_command_run false true 5 (some 1)).regextargets_applied = true ∧
    ∃ j, j < 5 ∧ (some 1 : Option Nat) = some j :=
  ⟨(execute_command_targets_always_applied 5 (some 1)).1,
   (execute_command_targets_always_applied 5 (some 1)).2.mp (by decide)⟩

-- Claim C2: ExporterManager.execute_commands (lines 656-695).

/-- The five command categories of the `command_scripts` mapping. -/
inductive CmdCategory where
  | OPTIMIZE
  | COMPILE
  | INFO
  | RENDER
  | POSTRENDER
deriving DecidableEq

/-- The fixed drain order of execute_commands (line 676). -/
def category_order : List CmdCategory :=
  [.OPTIMIZE, .COMPILE, .INFO, .RENDER, .POSTRENDER]

/-- One queued command: its script name and whether its execute_command call
completes (False models a raised RibmosaicError during execution). -/
structure CmdEntry where
  archive_name : String
  exec_ok : Bool
deriving DecidableEq

/-- The `command_scripts` bucket mapping. -/
structure CmdBuckets where
  optimize : List CmdEntry
  compile : List CmdEntry
  info : List CmdEntry
  render : List CmdEntry
  postrender : List CmdEntry
deriving DecidableEq

/-- Bucket lookup by category. -/
def CmdBuckets.get (b : CmdBuckets) : CmdCategory → List CmdEntry
  | .OPTIMIZE => b.optimize
  | .COMPILE => b.compile
  | .INFO => b.info
  | .RENDER => b.render
  | .POSTRENDER => b.postrender

/-- Bucket replacement by category. -/
def CmdBuckets.put (b : CmdBuckets) : CmdCategory → List CmdEntry → CmdBuckets
  | .OPTIMIZE, l => { b with optimize := l }
  | .COMPILE, l => { b with compile := l }
  | .INFO, l => { b with info := l }
  | .RENDER, l => { b with render := l }
  | .POSTRENDER, l => { b with postrender := l }

/-- The per-category enable test of lines 679-681 (`r` already forced on in
interactive mode). -/
def command_enabled (c o r : Bool) : CmdCategory → Bool
  | .RENDER => r
  | .POSTRENDER => r
  | .COMPILE => c
  | .INFO => c
  | .OPTIMIZE => o

/-- The inner loop over one bucket (lines 677-686): execute each enabled
command (a failure aborts into the outer `except: pass` - the failing
command and everything after it write no line), then append the invocation
line `"./" + archive_name + "\n"` to the root script for every category but
INFO.  Returns the lines appended and whether the loop survived. -/
def run_bucket (en : Bool) (is_info : Bool) :
    List CmdEntry → List String × Bool
  | [] => ([], true)
  | s :: rest =>
      if en && !s.exec_ok then ([], false)
      else
        let line := if is_info then [] else ["./" ++ s.archive_name ++ "\n"]
        let res := run_bucket en is_info rest
        (line ++ res.1, res.2)

/-- `ExporterManager.execute_commands` (lines 656-695): open the root script
START.sh.bat in append mode, drain the buckets in the fixed category order,
within each category execute enabled commands sequentially and write the
invocation lines of all non-INFO commands, clear each drained bucket unless
in interactive mode; an execution failure falls into `except: pass` and the
root script is closed with whatever lines were already appended.  Returns
the lines appended to the root script and the final buckets. -/
def execute_commands (c o r interactive : Bool) (b : CmdBuckets) :
    List String × CmdBuckets :=
  let renab := r || interactive
  let step := fun (acc : List String × CmdBuckets × Bool) (t : CmdCategory) =>
    if acc.2.2 then
      let res := run_bucket (command_enabled c o renab t)
        (t = CmdCategory.INFO) (acc.2.1.get t)
      (acc.1 ++ res.1,
       (if res.2 && !interactive then acc.2.1.put t [] else acc.2.1),
       res.2)
    else acc
  let out := category_order.foldl step ([], b, true)
  (out.1, out.2.1)

/-- Buckets holding a single INFO command and nothing else. -/
def buckets_info_only : CmdBuckets :=
  { optimize := [], compile := [],
    info := [{ archive_name := "INFO_S00001_C00001.sh", exec_ok := true }],
    render := [], postrender := [] }

/-- Claim C2 counterexample: with every enable flag set, draining a bucket
set whose only command sits in INFO appends no invocation line at all to the
root script, although that command was executed and queued. -/
theorem execute_commands_skips_info_lines :
    buckets_info_only.get .INFO ≠ [] ∧
    (execute_commands true true true false buckets_info_only).1 = [] := by
  decide

/-- The invocation line written for one command. -/
def invocation_line (s : CmdEntry) : String := "./" ++ s.archive_name ++ "\n"

/-- A surviving bucket writes exactly one line per command, none for INFO. -/
theorem run_bucket_lines (en : Bool) (is_info : Bool) (l : List CmdEntry)
    (h : ∀ s ∈ l, s.exec_ok = true) :
    run_bucket en is_info l
      = (if is_info then [] else l.map invocation_line, true) := by
  induction l with
  | nil => cases is_info <;> simp [run_bucket]
  | cons s rest ih =>
      have hs : s.exec_ok = true := h s (List.mem_cons_self s rest)
      have hrest : ∀ x ∈ rest, x.exec_ok = true :=
        fun x hx => h x (List.mem_cons_of_mem s hx)
      unfold run_bucket
      rw [ih hrest]
      cases is_info <;> simp [hs, invocation_line]

/-- Claim C2 (amended): when every queued command executes without raising,
execute_commands appends to the aggregate root script exactly one invocation
line per executed-or-queued command of every bucket except INFO, in the
fixed drain order OPTIMIZE, COMPILE, INFO, RENDER, POSTRENDER (INFO commands
are executed but never written to the root script). -/
theorem execute_commands_lines (c o r interactive : Bool) (b : CmdBuckets)
    (h : ∀ t, ∀ s ∈ b.get t, s.exec_ok = true) :
    (execute_commands c o r interactive b).1
      = (b.get .OPTIMIZE).map invocation_line
        ++ (b.get .COMPILE).map invocation_line
        ++ (b.get .RENDER).map invocation_line
        ++ (b.get .POSTRENDER).map invocation_line := by
  have hO := run_bucket_lines (command_enabled c o (r || interactive)
    .OPTIMIZE) false (b.get .OPTIMIZE) (h .OPTIMIZE)
  have hC := run_bucket_lines (command_enabled c o (r || interactive)
    .COMPILE) false (b.get .COMPILE) (h .COMPILE)
  have hI := run_bucket_lines (command_enabled c o (r || interactive)
    .INFO) true (b.get .INFO) (h .INFO)
  have hR := run_bucket_lines (command_enabled c o (r || interactive)
    .RENDER) false (b.get .RENDER) (h .RENDER)
  have hP := run_bucket_lines (command_enabled c o (r || interactive)
    .POSTRENDER) false (b.get .POSTRENDER) (h .POSTRENDER)
  simp only [CmdBuckets.get] at hO hC hI hR hP
  cases interactive <;>
  · simp only [Bool.or_false, Bool.or_true, if_true, if_false,
      Bool.false_eq_true, reduceIte] at hO hC hI hR hP
    simp [execute_commands, category_order, CmdBuckets.get, CmdBuckets.put,
      hO, hC, hI, hR, hP]

/-- A bucket set with one command in each of COMPILE, INFO and RENDER. -/
def buckets_demo : CmdBuckets :=
  { optimize := [],
    compile := [{ archive_name := "COMPILE_S00001_C00001.sh", exec_ok := true }],
    info := [{ archive_name := "INFO_S00001_C00001.sh", exec_ok := true }],
    render := [{ archive_name := "RENDER_P00001_F00001_C00001.sh", exec_ok := true }],
    postrender := [] }

/-- Witness for amended C2 on a concrete bucket set. -/
theorem execute_commands_lines_witness :
    (execute_commands true true true false buckets_demo).1
      = (buckets_demo.get .OPTIMIZE).map invocation_line
        ++ (buckets_demo.get .COMPILE).map invocation_line
        ++ (buckets_demo.get .RENDER).map invocation_line
        ++ (buckets_demo.get .POSTRENDER).map invocation_line :=
  execute_commands_lines true true true false buckets_demo
    (by intro t s hs; cases t <;> simp_all [CmdBuckets.get, buckets_demo])

-- Claim C8: pass/frame membership (lines 171-188 and 564-566).

/-- The scheduling fields of one RenderMan pass: the enable flag and the
frame-range triple, where a zero (falsy) component defers to the scene. -/
structure PassProps where
  pass_enabled : Bool
  pass_range_start : Int
  pass_range_end : Int
  pass_range_step : Int
deriving DecidableEq

/-- The scene frame-range fields used as defaults. -/
structure SceneProps where
  frame_start : Int
  frame_end : Int
  frame_step : Int
deriving DecidableEq

/-- The resolved start of a pass range (lines 173-176). -/
def range_start (p : PassProps) (sc : SceneProps) : Int :=
  if p.pass_range_start ≠ 0 then p.pass_range_start else sc.frame_start

/-- The resolved end of a pass range (lines 178-181). -/
def range_end (p : PassProps) (sc : SceneProps) : Int :=
  if p.pass_range_end ≠ 0 then p.pass_range_end else sc.frame_end

/-- The resolved step of a pass range (lines 183-186). -/
def range_step (p : PassProps) (sc : SceneProps) : Int :=
  if p.pass_range_step ≠ 0 then p.pass_range_step else sc.frame_step

/-- Membership of `f` in the Python `range(start, stop, step)` stored per
pass (line 188): for a positive step, `start ≤ f < stop` on the arithmetic
progression; for a negative step the reversed bounds; a zero step builds no
range (`range()` itself raises). -/
def range_contains (start stop step f : Int) : Bool :=
  if 0 < step then
    decide (start ≤ f) && decide (f < stop) && decide ((f - start) % step = 0)
  else if step < 0 then
    decide (f ≤ start) && decide (stop < f) && decide ((f - start) % step = 0)
  else false

/-- The pass-processing guard of export_rib (line 566): the pass body runs
iff the pass is enabled and the current frame lies in its stored range
`range(start, end + 1, step)`. -/
def pass_processed (p : PassProps) (sc : SceneProps) (f : Int) : Bool :=
  p.pass_enabled
    && range_contains (range_start p sc) (range_end p sc + 1)
         (range_step p sc) f

/-- The example pass of the claim: enabled, range (1, 10, 2). -/
def pass_example : PassProps :=
  { pass_enabled := true, pass_range_start := 1, pass_range_end := 10,
    pass_range_step := 2 }

/-- A scene whose defaults the example pass never consults. -/
def scene_example : SceneProps :=
  { frame_start := 1, frame_end := 250, frame_step := 1 }

/-- Claim C8: export_rib processes a pass at frame f iff the pass is enabled
and f lies in range(start, end + 1, step); for a positive step that range is
exactly the arithmetic progression from start bounded by end, and the pass
(start 1, end 10, step 2) matches exactly the frames 1, 3, 5, 7, 9 among
0..12. -/
theorem pass_frame_membership :
    (∀ (p : PassProps) (sc : SceneProps) (f : Int),
      pass_processed p sc f = true ↔
        (p.pass_enabled = true ∧
          range_contains (range_start p sc) (range_end p sc + 1)
            (range_step p sc) f = true)) ∧
    (∀ start e step f : Int, 0 < step →
      (range_contains start (e + 1) step f = true ↔
        ∃ k : Nat, f = start + (k : Int) * step ∧ f ≤ e)) ∧
    ((List.range 13).filter
        (fun n => pass_processed pass_example scene_example (n : Int))
      = [1, 3, 5, 7, 9]) := by
  refine ⟨?_, ?_, by decide⟩
  · intro p sc f
    simp [pass_processed]
  · intro start e step f hstep
    unfold range_contains
    simp only [hstep, if_true, reduceIte, Bool.and_eq_true, decide_eq_true_eq]
    constructor
    · rintro ⟨⟨hle, hlt⟩, hmod⟩
      have hdvd : step ∣ (f - start) := Int.dvd_of_emod_eq_zero hmod
      obtain ⟨k, hk⟩ := hdvd
      rw [mul_comm] at hk
      have hk0 : 0 ≤ k := by
        by_contra hneg
        push_neg at hneg
        have : k * step < 0 := mul_neg_of_neg_of_pos hneg hstep
        omega
      refine ⟨k.toNat, ?_, by omega⟩
      have : ((k.toNat : Int)) = k := Int.toNat_of_nonneg hk0
      rw [this]
      omega
    · rintro ⟨k, hk, hle⟩
      have hk0 : (0 : Int) ≤ (k : Int) * step :=
        mul_nonneg (Int.natCast_nonneg k) (le_of_lt hstep)
      refine ⟨⟨by omega, by omega⟩, ?_⟩
      have : f - start = (k : Int) * step := by omega
      rw [this]
      exact Int.mul_emod_left _ _

/-- Witness for amended C3 at a concrete store: the two fresh siblings use
references 0-1 and 2-3, and registering on the first leaves both of the
second sibling's lists untouched. -/
theorem add_regexes_nonfile_siblings_indep_witness :
    read_list (add_regexes pm_foo { archive_ref := 0, target_ref := 1 }
        "cmd/regexes" ⟨[[], [], [], []]⟩) 2
      = read_list ⟨[[], [], [], []]⟩ 2 ∧
    read_list (add_regexes pm_foo { archive_ref := 0, target_ref := 1 }
        "cmd/regexes" ⟨[[], [], [], []]⟩) 3
      = read_list ⟨[[], [], [], []]⟩ 3 :=
  add_regexes_nonfile_siblings_indep pm_foo ⟨[]⟩ "cmd/regexes"
    { archive_ref := 0, target_ref := 1 } { archive_ref := 2, target_ref := 3 }
    ⟨[[], []]⟩ ⟨[[], [], [], []]⟩ rfl rfl

/-- Witness for C8: frame 7 lies in the progression of the example pass and
the pass is processed there. -/
theorem pass_frame_membership_witness :
    (∃ k : Nat, (7 : Int) = 1 + (k : Int) * 2 ∧ (7 : Int) ≤ 10) ∧
    pass_processed pass_example scene_example 7 = true :=
  ⟨(pass_frame_membership.2.1 1 10 2 7 (by decide)).mp (by decide),
   (pass_frame_membership.1 pass_example scene_example 7).mpr
     ⟨rfl, by decide⟩⟩

/-- The non-root child of the regex fixture, as apply_regextargets builds it
before the pseudo-root reopen. -/
def arc_child_rx : ArcSt := { arc_foo with is_root := false }

/-- Witness for C9: reopening the concrete non-root child for reading yields
a root archive whose close releases the handle. -/
theorem open_archive_promotes_to_root_witness :
    arc_foo.is_root = true ∧
    (close_archive pm_foo re_sub_lit arc_foo fs_foo).1.ptr_file = false :=
  ⟨(open_archive_promotes_to_root pm_foo re_sub_lit arc_child_rx fs_foo).1
      none none .read arc_foo fs_foo rfl,
   ((open_archive_promotes_to_root pm_foo re_sub_lit arc_child_rx fs_foo).2
      arc_foo fs_foo rfl rfl (by decide)).1⟩
